import Mathlib

/-!
Verification of the dependency-aware resource lifecycle engine
(avtrujillo/podsolization, src/lib.rs) against its design document.

The Rust source is a trait-level skeleton: it declares the Provider trait,
the LocalResourceType trait (four CRUD operations with typed errors), the
Resource lifecycle enum, the Dependency struct, the DependencyTupleTrait
cons-list of tuple types, the DependencyList trait and the
LocalResourceBuilder trait.  Those declarations are embedded shallowly
below, keeping the source's names and shapes.  Components the design
document describes but the source does not contain (the Graph Executor and
the lifecycle transition functions) are modelled from the spec and say so
in their doc comments.
-/

namespace Podsolization

/-- reqwest::Client as the source uses it: an opaque capability value passed
into every CRUD operation.  The core never constructs or inspects one, so it
is embedded as an opaque unit-like type. -/
structure Client : Type

/-- std::marker::PhantomData T: a zero-sized marker carrying only a type.
It is inhabited (PhantomData.mk), exactly as in Rust, where
`Resource::_NotUsed(PhantomData)` is a constructible variant. -/
structure PhantomData (α : Type) : Type

/-- Box dyn Future with Output = α (src/lib.rs line 72): modelled as a
suspended computation handed its resume token; the only fact the claims
need is that completing it yields exactly one value of the Output type. -/
def FutureOf (α : Type) : Type := Unit → α

/-- Completing a future yields its Output value. -/
def FutureOf.complete {α : Type} (f : FutureOf α) : α := f ()

/-- Dependency (src/lib.rs lines 77-79): `pub struct Dependency {}` — a
struct declared with no fields at all. -/
structure Dependency : Type

/-- DependencyTupleTrait (src/lib.rs lines 81-85): the trait is implemented
for `()` and for `(Dependency, Tail)` with `Tail` implementing the trait,
so the implementing types are exactly the right-nested cons-tuples of
Dependency.  Embedded as a family indexed by arity: `DepTuple 0` is the
type `()`, `DepTuple (n+1)` is `(Dependency, DepTuple n)`. -/
inductive DepTuple : Nat → Type where
  | nil : DepTuple 0
  | cons {n : Nat} : Dependency → DepTuple n → DepTuple (n + 1)

/-- The number of Dependency values held by an internal dependency tuple. -/
def DepTuple.length : {n : Nat} → DepTuple n → Nat
  | _, DepTuple.nil => 0
  | _, DepTuple.cons _ tl => DepTuple.length tl + 1

/-- An arity-zero dependency tuple can only be the empty tuple. -/
theorem depTuple_zero_unique (t : DepTuple 0) : t = DepTuple.nil := by
  cases t
  rfl

/-- DependencyList trait (src/lib.rs lines 90-96), faithful to the declared
signatures: the source declares BOTH methods as
`fn tupleify(self) -> Self::DependencyTuple` and
`fn detupleify(self) -> Self::DependencyTuple` — both consume the list
`Self` and return the internal tuple.  (`detupleify` does not take the
tuple and return the list; see the theorems below.)  The associated-type
bound `DependencyTuple: DependencyTupleTrait` is embedded by fixing the
tuple type to `DepTuple n`. -/
structure DependencyListSig (Self : Type) (n : Nat) : Type where
  tupleify : Self → DepTuple n
  detupleify : Self → DepTuple n

/-- A legal instance of the DependencyList trait as the source declares it:
`Self := Bool` with the arity-zero tuple `()` as its DependencyTuple.
Both methods are the only functions possible into `DepTuple 0`.  The trait
neither forces `tupleify` to be injective nor relates the two methods. -/
def collapseList : DependencyListSig Bool 0 where
  tupleify := fun _ => DepTuple.nil
  detupleify := fun _ => DepTuple.nil

/-- Resource (src/lib.rs lines 70-75), faithful: the enum has FOUR
variants — `AwaitingDeps(DL)`, `Building(Spec, Box<dyn Future<Output =
State>>)`, `Done(Spec, State)`, and the marker `_NotUsed(PhantomData<RB>)`
(the leading underscore is dropped; Lean identifiers keep the rest).  The
type parameters stand for the DependencyList type, `R::ResourceSpec`,
`R::ResourceState` and the builder type `RB`. -/
inductive Resource (DL Spec State RB : Type) : Type where
  | AwaitingDeps : DL → Resource DL Spec State RB
  | Building : Spec → FutureOf State → Resource DL Spec State RB
  | Done : Spec → State → Resource DL Spec State RB
  | NotUsed : PhantomData RB → Resource DL Spec State RB

/-- C1: the spec requires `detupleify(tupleify(d)) == d` — that tupleify and
detupleify are mutually inverse.  In the source, `detupleify` has the same
direction as `tupleify` (`Self → DependencyTuple`, src/lib.rs line 95), so
the composite is ill-typed, and the trait imposes no round-trip law at all:
this theorem exhibits a legal instance of the declared trait whose
`tupleify` has NO left inverse of any kind, so the required identity cannot
hold for it. -/
theorem tupleify_admits_no_left_inverse :
    ¬ ∃ g : DepTuple 0 → Bool, ∀ d : Bool, g (collapseList.tupleify d) = d := by
  rintro ⟨g, hg⟩
  have h1 : g DepTuple.nil = true := hg true
  have h2 : g DepTuple.nil = false := hg false
  rw [h2] at h1
  exact Bool.noConfusion h1

/-- C2 counterexample: the claim says a Resource is in exactly one of THREE
states and the type has no other variant.  The source enum has a fourth
constructible variant, `_NotUsed(PhantomData<RB>)`: here is a Resource
value that is none of AwaitingDeps, Building, Done. -/
theorem resource_has_a_fourth_variant :
    ¬ ∀ r : Resource Unit Unit Unit Unit,
        (∃ dl, r = Resource.AwaitingDeps dl) ∨
        (∃ s op, r = Resource.Building s op) ∨
        (∃ s st, r = Resource.Done s st) := by
  intro h
  rcases h (Resource.NotUsed PhantomData.mk) with ⟨dl, hc⟩ | ⟨s, op, hc⟩ | ⟨s, st, hc⟩ <;>
    exact Resource.noConfusion hc

/-- C2 amended: a Resource lifecycle record is in exactly one of FOUR
variants — the three lifecycle states AwaitingDeps, Building, Done, plus
the data-free phantom marker `_NotUsed(PhantomData<RB>)` — and there is
still no Failed variant: the four disjuncts below are exhaustive. -/
theorem resource_variants_exhaustive (DL Spec State RB : Type)
    (r : Resource DL Spec State RB) :
    (∃ dl, r = Resource.AwaitingDeps dl) ∨
    (∃ s op, r = Resource.Building s op) ∨
    (∃ s st, r = Resource.Done s st) ∨
    (∃ p, r = Resource.NotUsed p) := by
  cases r with
  | AwaitingDeps dl => exact Or.inl ⟨dl, rfl⟩
  | Building s op => exact Or.inr (Or.inl ⟨s, op, rfl⟩)
  | Done s st => exact Or.inr (Or.inr (Or.inl ⟨s, st, rfl⟩))
  | NotUsed p => exact Or.inr (Or.inr (Or.inr ⟨p, rfl⟩))

/-- LocalResourceType trait (src/lib.rs lines 11-68): a Provider type, the
four associated shapes Spec/State/Identifier, four error types, and four
fallible operations.  Each operation takes the reqwest client and the
Provider handle plus operation-specific input and returns a Rust
`Result` — success value or operation-specific typed error — embedded as
`Except`.  `async` suspension adds nothing the claims here inspect, so an
operation is embedded as the function from its inputs to its result. -/
structure ResourceTypeSig : Type 1 where
  ResourceProvider : Type
  ResourceSpec : Type
  ResourceState : Type
  ResourceIdentifier : Type
  CreateError : Type
  GetError : Type
  UpdateError : Type
  DeleteError : Type
  create : Client → ResourceProvider →
    Except CreateError (ResourceIdentifier × ResourceState)
  get : ResourceIdentifier → Client → ResourceProvider →
    Except GetError ResourceState
  update : ResourceIdentifier → ResourceSpec → Client → ResourceProvider →
    Except UpdateError ResourceState
  delete : ResourceIdentifier → Client → ResourceProvider →
    Except DeleteError Unit

/-- LocalResourceBuilder trait (src/lib.rs lines 101-106): `build_spec`
takes only the DependencyList — no Provider handle, no client — and
returns the Resource Spec. -/
structure ResourceBuilderSig (R : ResourceTypeSig) (DL : Type) : Type where
  build_spec : DL → R.ResourceSpec

/-- A small concrete resource type used to instantiate the signatures at
checkable inputs: State is Unit, CreateError is Bool (two distinguishable
error values), Spec is Nat. -/
def toyResourceType : ResourceTypeSig where
  ResourceProvider := Unit
  ResourceSpec := Nat
  ResourceState := Unit
  ResourceIdentifier := Unit
  CreateError := Bool
  GetError := Unit
  UpdateError := Bool
  DeleteError := Unit
  create := fun _ _ => Except.ok ((), ())
  get := fun _ _ _ => Except.ok ()
  update := fun _ _ _ _ => Except.ok ()
  delete := fun _ _ _ => Except.ok ()

/-- A concrete builder over the toy resource type: the spec it produces is
the length of its dependency list. -/
def toyBuilder : ResourceBuilderSig toyResourceType (List Nat) where
  build_spec := fun deps => deps.length

/-- Modelled from the spec: the lifecycle transition `Building(spec, op) →
Done(spec, state)` of design §4.4 step 2 ("when op completes
successfully"); no transition function exists in src/.  The stored op has
the source's type `Box<dyn Future<Output = ResourceState>>` (src/lib.rs
line 72), so completing it yields a ResourceState and nothing else. -/
def completeBuilding {DL Spec State RB : Type} :
    Resource DL Spec State RB → Resource DL Spec State RB
  | Resource.Building s op => Resource.Done s (FutureOf.complete op)
  | r => r

/-- Modelled from the spec: the transition `AwaitingDeps(deps) →
Building(spec, op)` of design §4.4 step 1, taken when every referenced
resource is Done; no executor exists in src/.  `env` reports which
resources of the graph are Done, `refs` lists the resources a
DependencyList references, `builder` is the Resource Builder and `mkOp`
issues the pending provider call for a Spec. -/
def startBuilding {ρ DL Spec State RB : Type} (env : ρ → Bool)
    (refs : DL → List ρ) (builder : DL → Spec) (mkOp : Spec → FutureOf State) :
    Resource DL Spec State RB → Resource DL Spec State RB
  | Resource.AwaitingDeps dl =>
      if (refs dl).all env then
        Resource.Building (builder dl) (mkOp (builder dl))
      else Resource.AwaitingDeps dl
  | r => r

/-- C3 counterexample: the claim says a failure of the in-flight operation
held by a Building resource is representable.  The source stores the
in-flight operation as `Box<dyn Future<Output = R::ResourceState>>`
(src/lib.rs line 72), although `create` itself returns
`Result<_, CreateError>`: the stored op's outcome type is bare
ResourceState.  At the toy instance (State = Unit, CreateError = Bool) the
two CreateError values cannot even be told apart inside the op's type —
no injective map from the errors into the stored future's type exists —
so an error outcome is not representable there. -/
theorem building_op_cannot_carry_error :
    ¬ ∃ f : toyResourceType.CreateError → FutureOf toyResourceType.ResourceState,
        Function.Injective f := by
  rintro ⟨f, hf⟩
  have h : f true = f false := funext fun _ => rfl
  exact Bool.noConfusion (hf h)

/-- C3 amended: in the base model the in-flight operation of a Building
resource can only complete successfully: its output type is ResourceState,
so the step of §4.4 always transitions `Building(spec, op)` to
`Done(spec, op's output)` and no error outcome exists in the state
machine (error surfacing requires the §9 extension). -/
theorem building_completes_only_to_done (DL Spec State RB : Type)
    (s : Spec) (op : FutureOf State) :
    completeBuilding (Resource.Building s op : Resource DL Spec State RB) =
      Resource.Done s (FutureOf.complete op) := rfl

/-- C4: each of the four Resource Type operations is total and returns
either its success value or its operation-specific typed error — create
yields `(Identifier, State)` or CreateError, get yields State or GetError,
update yields State or UpdateError, delete yields `()` or DeleteError —
with no third outcome (no exception channel exists in the result type). -/
theorem crud_ops_return_success_or_typed_error (T : ResourceTypeSig)
    (c : Client) (p : T.ResourceProvider) (i : T.ResourceIdentifier)
    (s : T.ResourceSpec) :
    ((∃ v, T.create c p = Except.ok v) ∨ (∃ e, T.create c p = Except.error e)) ∧
    ((∃ v, T.get i c p = Except.ok v) ∨ (∃ e, T.get i c p = Except.error e)) ∧
    ((∃ v, T.update i s c p = Except.ok v) ∨
      (∃ e, T.update i s c p = Except.error e)) ∧
    ((∃ v, T.delete i c p = Except.ok v) ∨
      (∃ e, T.delete i c p = Except.error e)) := by
  refine ⟨?_, ?_, ?_, ?_⟩
  · cases h : T.create c p with
    | ok v => exact Or.inl ⟨v, rfl⟩
    | error e => exact Or.inr ⟨e, rfl⟩
  · cases h : T.get i c p with
    | ok v => exact Or.inl ⟨v, rfl⟩
    | error e => exact Or.inr ⟨e, rfl⟩
  · cases h : T.update i s c p with
    | ok v => exact Or.inl ⟨v, rfl⟩
    | error e => exact Or.inr ⟨e, rfl⟩
  · cases h : T.delete i c p with
    | ok v => exact Or.inl ⟨v, rfl⟩
    | error e => exact Or.inr ⟨e, rfl⟩

/-- C5 counterexample: the claim says a Dependency edge carries the
referenced resource's realized value once that resource is Done and no
value before.  The source's `Dependency` is a struct with no fields
(src/lib.rs lines 77-79), so no assignment of carried values to Dependency
edges can make one edge carry nothing and another carry something: the
claimed before/after distinction is unrealizable. -/
theorem dependency_value_indistinguishable :
    ¬ ∃ f : Dependency → Option Nat,
        (∃ d, f d = none) ∧ (∃ d v, f d = some v) := by
  rintro ⟨f, ⟨d1, h1⟩, ⟨d2, v, h2⟩⟩
  have hd : d1 = d2 := by cases d1; cases d2; rfl
  rw [hd, h2] at h1
  exact Option.noConfusion h1

/-- C5 amended: the Dependency struct declares no fields, so a Dependency
value carries no data in any lifecycle state — the type has exactly one
value, and every function out of it is constant. -/
theorem dependency_carries_no_value (d1 d2 : Dependency) : d1 = d2 := by
  cases d1
  cases d2
  rfl

/-- C6: `build_spec` is a function of the Dependency List alone — its
signature (src/lib.rs line 105) passes no Provider handle and no network
client, and in this pure embedding two invocations on equal Dependency
Lists yield equal Specs for every builder of every resource type. -/
theorem build_spec_deterministic (R : ResourceTypeSig) (DL : Type)
    (B : ResourceBuilderSig R DL) (d1 d2 : DL) (h : d1 = d2) :
    B.build_spec d1 = B.build_spec d2 := by
  rw [h]

/-- C6 witness: the toy builder at two syntactically different but equal
dependency lists. -/
theorem build_spec_deterministic_witness :
    toyBuilder.build_spec ([1] ++ [2]) = toyBuilder.build_spec [1, 2] :=
  build_spec_deterministic toyResourceType (List Nat) toyBuilder
    ([1] ++ [2]) [1, 2] (by decide)

/-- How a Rust function parameter receives its argument: by value (the
argument is moved into the call) or by reference (`&`/`&mut`, the caller
keeps ownership). -/
inductive PassMode : Type where
  | byValue
  | byRef
  deriving DecidableEq

/-- One declared parameter of a trait method: its name and how it is
passed. -/
structure ParamDecl : Type where
  pname : String
  mode : PassMode
  deriving DecidableEq

/-- The capability parameters (the reqwest client and the Provider handle)
of `create` as declared in src/lib.rs lines 33-36: `client:
reqwest::Client` and `provider: Self::ResourceProvider`, no `&` on
either. -/
def createCapabilityParams : List ParamDecl :=
  [⟨"client", PassMode.byValue⟩, ⟨"provider", PassMode.byValue⟩]

/-- The capability parameters of `get` (src/lib.rs lines 42-46). -/
def getCapabilityParams : List ParamDecl :=
  [⟨"client", PassMode.byValue⟩, ⟨"provider", PassMode.byValue⟩]

/-- The capability parameters of `update` (src/lib.rs lines 52-57). -/
def updateCapabilityParams : List ParamDecl :=
  [⟨"client", PassMode.byValue⟩, ⟨"provider", PassMode.byValue⟩]

/-- The capability parameters of `delete` (src/lib.rs lines 63-67). -/
def deleteCapabilityParams : List ParamDecl :=
  [⟨"client", PassMode.byValue⟩, ⟨"provider", PassMode.byValue⟩]

/-- Every client/provider parameter of the four operations. -/
def allCapabilityParams : List ParamDecl :=
  createCapabilityParams ++ getCapabilityParams ++
    updateCapabilityParams ++ deleteCapabilityParams

/-- C7 counterexample: the claim says every operation takes the Provider
handle and the client as referenced capabilities.  The declared signatures
take both by value: already `create`'s client parameter is not by
reference. -/
theorem capability_params_not_by_reference :
    ¬ ∀ p ∈ allCapabilityParams, p.mode = PassMode.byRef := by
  decide

/-- C7 amended: every Resource Type operation takes the client and the
Provider handle BY VALUE — ownership of the argument moves into the call,
so a caller keeps its handles only by cloning them before the call; no
`&`-reference appears in the four signatures. -/
theorem capability_params_taken_by_value :
    ∀ p ∈ allCapabilityParams, p.mode = PassMode.byValue := by
  decide

/-- C7 witness: the amended theorem applied to create's client parameter. -/
theorem capability_params_taken_by_value_witness :
    (⟨"client", PassMode.byValue⟩ : ParamDecl).mode = PassMode.byValue :=
  capability_params_taken_by_value ⟨"client", PassMode.byValue⟩ (by decide)

/-- Modelled from the spec: a resource's executor-visible progress.  The
executor of §4.5 materializes a ready resource (runs §4.4 steps 1-2); here
a resource is `awaiting` until the executor materializes it and `done`
afterwards. -/
inductive RStatus : Type where
  | awaiting
  | done
  deriving DecidableEq

/-- Modelled from the spec: the dependency graph the Graph Executor of
§4.5 walks (absent from src/) — one node per declared resource, each
holding the list of resources its Dependency List references. -/
structure ExecGraph (n : Nat) : Type where
  deps : Fin n → List (Fin n)

/-- Modelled from the spec: one executor run's bookkeeping — each
resource's status and how many times its create has been invoked. -/
structure ExecState (n : Nat) : Type where
  status : Fin n → RStatus
  createCalls : Fin n → Nat

/-- Modelled from the spec: topological readiness (§4.5) — a resource is
ready when it is still awaiting and every resource its Dependency List
references is done. -/
def readyAt {n : Nat} (g : ExecGraph n) (st : ExecState n) (i : Fin n) : Bool :=
  decide (st.status i = RStatus.awaiting) &&
    (g.deps i).all fun j => decide (st.status j = RStatus.done)

/-- Modelled from the spec: one executor round — every ready resource is
materialized (its create is invoked once, §4.4 steps 1-2, and it becomes
done); every other resource is untouched. -/
def execRound {n : Nat} (g : ExecGraph n) (st : ExecState n) : ExecState n where
  status := fun i => if readyAt g st i then RStatus.done else st.status i
  createCalls := fun i =>
    if readyAt g st i then st.createCalls i + 1 else st.createCalls i

/-- Modelled from the spec: at the start of a run every resource is
awaiting and no create has been invoked. -/
def execInit (n : Nat) : ExecState n where
  status := fun _ => RStatus.awaiting
  createCalls := fun _ => 0

/-- Modelled from the spec: the executor run as `k` rounds of topological
readiness from the initial state. -/
def execRun {n : Nat} (g : ExecGraph n) : Nat → ExecState n
  | 0 => execInit n
  | k + 1 => execRound g (execRun g k)

/-- A done resource stays done across a round: `readyAt` requires
awaiting, so the executor never re-materializes it. -/
theorem execRound_done_persists {n : Nat} (g : ExecGraph n) (st : ExecState n)
    (i : Fin n) (h : st.status i = RStatus.done) :
    (execRound g st).status i = RStatus.done := by
  show (if readyAt g st i then RStatus.done else st.status i) = RStatus.done
  split
  · rfl
  · exact h

/-- Invariant of a run: a resource's create count is 1 exactly when it is
done and 0 exactly while it is awaiting. -/
theorem execRun_createCalls_inv {n : Nat} (g : ExecGraph n) (k : Nat) (i : Fin n) :
    ((execRun g k).status i = RStatus.done → (execRun g k).createCalls i = 1) ∧
    ((execRun g k).status i = RStatus.awaiting → (execRun g k).createCalls i = 0) := by
  induction k with
  | zero => exact ⟨fun h => RStatus.noConfusion h, fun _ => rfl⟩
  | succ k ih =>
    show ((execRound g (execRun g k)).status i = RStatus.done →
          (execRound g (execRun g k)).createCalls i = 1) ∧
        ((execRound g (execRun g k)).status i = RStatus.awaiting →
          (execRound g (execRun g k)).createCalls i = 0)
    cases hr : readyAt g (execRun g k) i with
    | true =>
      have hawait : (execRun g k).status i = RStatus.awaiting := by
        have := hr
        unfold readyAt at this
        simp only [Bool.and_eq_true, decide_eq_true_eq] at this
        exact this.1
      have hcount : (execRun g k).createCalls i = 0 := ih.2 hawait
      constructor
      · intro _
        show (if readyAt g (execRun g k) i then (execRun g k).createCalls i + 1
              else (execRun g k).createCalls i) = 1
        rw [hr, if_pos rfl, hcount]
      · intro hst
        exfalso
        have : (execRound g (execRun g k)).status i = RStatus.done := by
          show (if readyAt g (execRun g k) i then RStatus.done
                else (execRun g k).status i) = RStatus.done
          rw [hr, if_pos rfl]
        rw [hst] at this
        exact RStatus.noConfusion this
    | false =>
      have hstatus : (execRound g (execRun g k)).status i = (execRun g k).status i := by
        show (if readyAt g (execRun g k) i then RStatus.done
              else (execRun g k).status i) = (execRun g k).status i
        rw [hr, if_neg (fun hc => Bool.noConfusion hc)]
      have hcalls :
          (execRound g (execRun g k)).createCalls i = (execRun g k).createCalls i := by
        show (if readyAt g (execRun g k) i then (execRun g k).createCalls i + 1
              else (execRun g k).createCalls i) = (execRun g k).createCalls i
        rw [hr, if_neg (fun hc => Bool.noConfusion hc)]
      rw [hstatus, hcalls]
      exact ih

/-- On an acyclic graph (witnessed by a rank function that drops along
every dependency edge), every resource of rank below r is done after r
rounds. -/
theorem execRun_rank_done {n : Nat} (g : ExecGraph n) (rank : Fin n → Nat)
    (hrank : ∀ i : Fin n, ∀ j ∈ g.deps i, rank j < rank i) (r : Nat) :
    ∀ i : Fin n, rank i < r → (execRun g r).status i = RStatus.done := by
  induction r with
  | zero => exact fun i hi => absurd hi (Nat.not_lt_zero _)
  | succ r ih =>
    intro i hi
    show (execRound g (execRun g r)).status i = RStatus.done
    cases hst : (execRun g r).status i with
    | done => exact execRound_done_persists g (execRun g r) i hst
    | awaiting =>
      have hready : readyAt g (execRun g r) i = true := by
        unfold readyAt
        simp only [Bool.and_eq_true, decide_eq_true_eq, List.all_eq_true]
        refine ⟨hst, fun j hj => ih j ?_⟩
        exact Nat.lt_of_lt_of_le (hrank i j hj) (Nat.lt_succ_iff.mp hi)
      show (if readyAt g (execRun g r) i then RStatus.done
            else (execRun g r).status i) = RStatus.done
      rw [hready, if_pos rfl]

/-- C8: (spec-modelled) at-most-once materialization — on an acyclic
dependency graph, a run long enough to settle every resource invokes each
resource's create exactly once, however many dependents the resource has. -/
theorem executor_materializes_exactly_once {n : Nat} (g : ExecGraph n)
    (rank : Fin n → Nat) (k : Nat)
    (hrank : ∀ i : Fin n, ∀ j ∈ g.deps i, rank j < rank i)
    (hk : ∀ i : Fin n, rank i < k) (i : Fin n) :
    (execRun g k).createCalls i = 1 :=
  (execRun_createCalls_inv g k i).1 (execRun_rank_done g rank hrank k i (hk i))

/-- A three-resource graph: resource 0 has no dependencies, resources 1
and 2 both depend on resource 0 (two dependents reading one output). -/
def diamondGraph : ExecGraph 3 where
  deps := ![[], [0], [0]]

/-- C8 witness: in the diamond graph, resource 0's create is invoked
exactly once after three rounds even though two resources depend on it
(and so is every other resource's). -/
theorem executor_materializes_exactly_once_witness :
    (execRun diamondGraph 3).createCalls 0 = 1 :=
  executor_materializes_exactly_once diamondGraph (fun i => i.val) 3
    (by decide) (by decide) 0

/-- C9: a Dependency List of length zero is valid and always resolved —
the empty tuple inhabits the internal representation at arity 0 — and a
resource whose Dependency List references no other resource steps from
AwaitingDeps straight to Building under ANY environment, including one in
which no other resource is done. -/
theorem zero_dep_list_starts_building (ρ DL Spec State RB : Type)
    (env : ρ → Bool) (refs : DL → List ρ) (builder : DL → Spec)
    (mkOp : Spec → FutureOf State) (dl : DL) (h : refs dl = []) :
    (∃ t : DepTuple 0, DepTuple.length t = 0) ∧
      startBuilding env refs builder mkOp
          (Resource.AwaitingDeps dl : Resource DL Spec State RB) =
        Resource.Building (builder dl) (mkOp (builder dl)) := by
  refine ⟨⟨DepTuple.nil, rfl⟩, ?_⟩
  show (if (refs dl).all env then
          Resource.Building (builder dl) (mkOp (builder dl))
        else Resource.AwaitingDeps dl) = _
  rw [h]
  rfl

/-- C9 witness: a zero-dependency resource with Spec 7 starts Building in
an environment where NO resource is done. -/
theorem zero_dep_list_starts_building_witness :
    (∃ t : DepTuple 0, DepTuple.length t = 0) ∧
      startBuilding (fun _ : Fin 1 => false) (fun _ : Unit => ([] : List (Fin 1)))
          (fun _ : Unit => (7 : Nat)) (fun s => (fun _ => s : FutureOf Nat))
          (Resource.AwaitingDeps () : Resource Unit Nat Nat Unit) =
        Resource.Building 7 (fun _ => 7) :=
  zero_dep_list_starts_building (Fin 1) Unit Nat Nat Unit
    (fun _ => false) (fun _ => []) (fun _ => 7) (fun s => fun _ => s) () rfl

/-- C10: every internal dependency tuple is either the empty tuple or a
pair of a Dependency and a valid tail tuple — the representation is a
finite right-nested cons-list of Dependency values — and its length is
the arity fixed by its type. -/
theorem dep_tuple_shape :
    (∀ t : DepTuple 0, t = DepTuple.nil) ∧
    (∀ (n : Nat) (t : DepTuple (n + 1)),
      ∃ (d : Dependency) (tl : DepTuple n), t = DepTuple.cons d tl) ∧
    (∀ (n : Nat) (t : DepTuple n), DepTuple.length t = n) := by
  refine ⟨depTuple_zero_unique, fun n t => ?_, fun n t => ?_⟩
  · cases t with
    | cons d tl => exact ⟨d, tl, rfl⟩
  · induction t with
    | nil => rfl
    | cons d tl ih =>
      show DepTuple.length tl + 1 = _ + 1
      rw [ih]

end Podsolization
